import Mathlib

/-!
Shallow embedding of `schemarize/readers.py`: streaming readers for JSONL,
JSON-array, CSV and Parquet sources, together with proofs of the
specification claims about their content, ordering, error and resource
semantics.

Conventions of the embedding:
* A Python generator that yields records and may raise is modelled as a
  function returning `List record × Option ReadErr`: the records yielded
  before termination, and the error (if any) raised at the point where the
  next record would have been produced.
* Black-box collaborators (the `json` decoder, the `csv` tokenizer, the
  pandas CSV engine, the pyarrow Parquet engine) are modelled at their
  documented interface: readers are parametric in the structured-value
  decoder, and tokenized input is supplied as lists of lines / rows.
-/

/-- Decoded structured JSON value, as produced by the structured-value
decoder (`json.loads`). The decoder itself is an external collaborator;
the readers are parametric in it, so only a value carrier is needed. -/
inductive Json where
  | null : Json
  | bool : Bool → Json
  | num : Int → Json
  | str : String → Json
  deriving DecidableEq

/-- The payload of a Python `json.JSONDecodeError` as raised by the decoder:
its short message `msg`, the document `doc`, and the character position
`pos` within it. -/
structure JsonErr where
  msg : String
  doc : String
  pos : Nat
  deriving DecidableEq

/-- The errors the readers can raise, mirroring the exception types used in
`readers.py`: `RuntimeError(msg)`, `json.JSONDecodeError(msg, doc, pos)`,
and `UnicodeDecodeError` (whose message text is not modelled). -/
inductive ReadErr where
  | runtimeError (msg : String)
  | jsonDecodeError (msg : String) (doc : String) (pos : Nat)
  | unicodeDecodeError
  deriving DecidableEq

/-- One physical line as obtained by iterating the underlying file object in
`read_jsonl`: a text line (`str`), a binary line (`bytes`/`bytearray`, with a
`memoryview` first converted via `tobytes`), or a value of any other type. -/
inductive RawLine where
  | text (s : String)
  | bytes (bs : List Nat)
  | other
  deriving DecidableEq

/-- Whether a byte is a UTF-8 continuation byte (`0x80..0xBF`). -/
def contByte (b : Nat) : Bool :=
  decide (0x80 ≤ b) && decide (b < 0xC0)

/-- Strict UTF-8 decoding of a byte sequence into characters, as performed by
Python's `bytes.decode("utf-8")`: rejects stray continuation bytes, overlong
encodings, surrogate code points and out-of-range sequences. -/
def utf8DecodeChars : List Nat → Option (List Char)
  | [] => some []
  | b0 :: rest =>
    if b0 < 0x80 then
      (utf8DecodeChars rest).map (fun cs => Char.ofNat b0 :: cs)
    else if b0 < 0xC2 then
      none
    else if b0 < 0xE0 then
      match rest with
      | b1 :: rest1 =>
        if contByte b1 then
          (utf8DecodeChars rest1).map
            (fun cs => Char.ofNat ((b0 - 0xC0) * 0x40 + (b1 - 0x80)) :: cs)
        else none
      | [] => none
    else if b0 < 0xF0 then
      match rest with
      | b1 :: b2 :: rest2 =>
        if contByte b1 && contByte b2 then
          let cp := (b0 - 0xE0) * 0x1000 + (b1 - 0x80) * 0x40 + (b2 - 0x80)
          if decide (0x800 ≤ cp) && (decide (cp < 0xD800) || decide (0xDFFF < cp)) then
            (utf8DecodeChars rest2).map (fun cs => Char.ofNat cp :: cs)
          else none
        else none
      | _ => none
    else if b0 < 0xF5 then
      match rest with
      | b1 :: b2 :: b3 :: rest3 =>
        if contByte b1 && contByte b2 && contByte b3 then
          let cp := (b0 - 0xF0) * 0x40000 + (b1 - 0x80) * 0x1000 +
                    (b2 - 0x80) * 0x40 + (b3 - 0x80)
          if decide (0x10000 ≤ cp) && decide (cp < 0x110000) then
            (utf8DecodeChars rest3).map (fun cs => Char.ofNat cp :: cs)
          else none
        else none
      | _ => none
    else none

/-- Python `bytes.decode("utf-8")`: `some` of the decoded string on success,
`none` when the bytes are not valid UTF-8 (Python raises `UnicodeDecodeError`). -/
def utf8Decode (bs : List Nat) : Option String :=
  (utf8DecodeChars bs).map (fun cs => String.mk cs)

/-- Python `str.strip()`: remove leading and trailing whitespace. -/
def pyStrip (s : String) : String :=
  String.mk (((s.data.dropWhile Char.isWhitespace).reverse.dropWhile
    Char.isWhitespace).reverse)

/-- The per-line normalization of `read_jsonl` (readers.py lines 38-44):
a `memoryview`/`bytes` line is decoded as UTF-8, where an undecodable line
raises `UnicodeDecodeError` (nothing in `read_jsonl` catches it); a line that
is still not a `str` is passed over (`continue`); a text line is kept. -/
def lineText : RawLine → Except ReadErr (Option String)
  | .text s => .ok (some s)
  | .bytes bs =>
    match utf8Decode bs with
    | none => .error .unicodeDecodeError
    | some s => .ok (some s)
  | .other => .ok none

/-- The loop of `read_jsonl` (readers.py lines 37-55), over the enumerated
lines with 1-based index `idx`: each line is normalized by `lineText`, then
stripped; a blank result is skipped; otherwise the line is parsed, success
yields the value, and a decode failure re-raises `json.JSONDecodeError` with
the 1-based line number and the decoder's message, terminating the stream. -/
def read_jsonl_go (parse : String → Except JsonErr Json) :
    List RawLine → Nat → List Json × Option ReadErr
  | [], _ => ([], none)
  | l :: rest, idx =>
    match lineText l with
    | .error e => ([], some e)
    | .ok none => read_jsonl_go parse rest (idx + 1)
    | .ok (some s) =>
      let t := pyStrip s
      if t = "" then read_jsonl_go parse rest (idx + 1)
      else
        match parse t with
        | .ok j =>
          let r := read_jsonl_go parse rest (idx + 1)
          (j :: r.1, r.2)
        | .error e =>
          ([], some (.jsonDecodeError
              ("Error parsing JSON on line " ++ toString idx ++ ": " ++ e.msg)
              e.doc e.pos))

/-- `read_jsonl`: iterate the lines of the source with `enumerate(..., start=1)`
and yield one decoded record per non-blank line. -/
def read_jsonl (parse : String → Except JsonErr Json) (lines : List RawLine) :
    List Json × Option ReadErr :=
  read_jsonl_go parse lines 1

/-- The records `read_jsonl` produces from a run of valid text lines: each
line stripped, blank lines dropped, the remaining lines decoded in order. -/
def jsonlRecords (parse : String → Except JsonErr Json) (lines : List String) :
    List Json :=
  ((lines.map pyStrip).filter (fun t => t ≠ "")).filterMap
    (fun t => (parse t).toOption)

/-- A concrete stand-in for the black-box `json.loads` decoder, defined on
the handful of inputs the concrete scenarios use. -/
def demoParse : String → Except JsonErr Json := fun s =>
  if s = "1" then .ok (Json.num 1)
  else if s = "2" then .ok (Json.num 2)
  else if s = "true" then .ok (Json.bool true)
  else .error ⟨"Expecting value", s, 0⟩

example : read_jsonl demoParse [RawLine.text "1", RawLine.text "  ", RawLine.text "2"] =
    ([Json.num 1, Json.num 2], none) := by decide

example : utf8Decode [0xFF] = none := by decide

example : utf8Decode [0x68, 0x69] = some "hi" := by decide

instance {ε α : Type} [DecidableEq ε] [DecidableEq α] :
    DecidableEq (Except ε α) := fun a b =>
  match a, b with
  | .ok x, .ok y => decidable_of_iff (x = y) (by simp)
  | .ok _, .error _ => isFalse (by simp)
  | .error _, .ok _ => isFalse (by simp)
  | .error x, .error y => decidable_of_iff (x = y) (by simp)

/-- Unfolding equation of `read_jsonl_go` on a non-empty line list. -/
theorem read_jsonl_go_cons (parse : String → Except JsonErr Json) (l : RawLine)
    (rest : List RawLine) (idx : Nat) :
    read_jsonl_go parse (l :: rest) idx =
      match lineText l with
      | .error e => ([], some e)
      | .ok none => read_jsonl_go parse rest (idx + 1)
      | .ok (some s) =>
        let t := pyStrip s
        if t = "" then read_jsonl_go parse rest (idx + 1)
        else
          match parse t with
          | .ok j =>
            let r := read_jsonl_go parse rest (idx + 1)
            (j :: r.1, r.2)
          | .error e =>
            ([], some (.jsonDecodeError
                ("Error parsing JSON on line " ++ toString idx ++ ": " ++ e.msg)
                e.doc e.pos)) := rfl

/-- Processing a run of text lines that all parse (or are blank) yields their
records in order and then continues with the remaining lines, the line
counter advanced by the number of lines consumed. -/
theorem read_jsonl_go_text_ok (parse : String → Except JsonErr Json)
    (pre : List String) (rest : List RawLine) (idx : Nat)
    (hpre : ∀ s ∈ pre, pyStrip s ≠ "" → (parse (pyStrip s)).isOk) :
    read_jsonl_go parse (pre.map RawLine.text ++ rest) idx =
      (jsonlRecords parse pre ++ (read_jsonl_go parse rest (idx + pre.length)).1,
       (read_jsonl_go parse rest (idx + pre.length)).2) := by
  induction pre generalizing idx with
  | nil => simp [jsonlRecords]
  | cons s pre ih =>
    have hs := hpre s (List.mem_cons_self s pre)
    have htail : ∀ s ∈ pre, pyStrip s ≠ "" → (parse (pyStrip s)).isOk :=
      fun x hx => hpre x (List.mem_cons_of_mem s hx)
    by_cases hb : pyStrip s = ""
    · simp only [List.map_cons, List.cons_append, read_jsonl_go_cons, lineText,
        hb, if_pos rfl]
      rw [ih (idx + 1) htail]
      simp [jsonlRecords, hb, Nat.add_assoc, Nat.add_comm 1 pre.length]
    · have hok := hs hb
      obtain ⟨j, hj⟩ : ∃ j, parse (pyStrip s) = .ok j := by
        cases h : parse (pyStrip s) with
        | ok j => exact ⟨j, rfl⟩
        | error e =>
          rw [h] at hok
          simp [Except.isOk, Except.toBool] at hok
      simp only [List.map_cons, List.cons_append, read_jsonl_go_cons, lineText,
        if_neg hb, hj]
      rw [ih (idx + 1) htail]
      simp [jsonlRecords, hb, hj, Except.toOption, Nat.add_assoc,
        Nat.add_comm 1 pre.length]

/-- C3: for every valid JSONL input, `read_jsonl` yields exactly the ordered
list of JSON-decoded non-blank lines — whitespace-only lines are skipped and
never emitted, source line order is preserved, nothing is reordered or
deduplicated, and no error is raised. -/
theorem read_jsonl_valid (parse : String → Except JsonErr Json)
    (lines : List String)
    (h : ∀ s ∈ lines, pyStrip s ≠ "" → (parse (pyStrip s)).isOk) :
    read_jsonl parse (lines.map RawLine.text) = (jsonlRecords parse lines, none) := by
  have key := read_jsonl_go_text_ok parse lines [] 1 h
  simpa [read_jsonl, read_jsonl_go] using key

/-- Witness for C3: the spec's concrete scenario shape — two records
separated by a blank line yield exactly the two records, in order. -/
theorem read_jsonl_valid_witness :
    read_jsonl demoParse (["1", "   ", "2"].map RawLine.text) =
      ([Json.num 1, Json.num 2], none) :=
  (read_jsonl_valid demoParse ["1", "   ", "2"] (by decide)).trans (by decide)

/-- C5: a non-blank line that fails to decode terminates the stream exactly
there: all records of earlier lines have been yielded, the raised error is a
`json.JSONDecodeError` whose message carries the 1-based line number and the
decoder's own message, and nothing from that line or later lines appears. -/
theorem read_jsonl_decode_error (parse : String → Except JsonErr Json)
    (pre : List String) (bad : String) (post : List RawLine) (e : JsonErr)
    (hpre : ∀ s ∈ pre, pyStrip s ≠ "" → (parse (pyStrip s)).isOk)
    (hnb : pyStrip bad ≠ "") (hbad : parse (pyStrip bad) = .error e) :
    read_jsonl parse (pre.map RawLine.text ++ RawLine.text bad :: post) =
      (jsonlRecords parse pre,
       some (.jsonDecodeError
         ("Error parsing JSON on line " ++ toString (pre.length + 1) ++ ": " ++ e.msg)
         e.doc e.pos)) := by
  have key := read_jsonl_go_text_ok parse pre (RawLine.text bad :: post) 1 hpre
  rw [read_jsonl, key]
  simp [read_jsonl_go, lineText, hnb, hbad, Nat.add_comm 1 pre.length]

/-- Witness for C5: after one good line, line 2 fails to parse; the record
of line 1 is delivered and the error names line 2 and the decoder message. -/
theorem read_jsonl_decode_error_witness :
    read_jsonl demoParse
      (["1"].map RawLine.text ++ RawLine.text "nope" :: [RawLine.text "2"]) =
      ([Json.num 1],
       some (.jsonDecodeError "Error parsing JSON on line 2: Expecting value"
         "nope" 0)) :=
  (read_jsonl_decode_error demoParse ["1"] "nope" [RawLine.text "2"]
    ⟨"Expecting value", "nope", 0⟩ (by decide) (by decide) (by decide)).trans
    (by decide)

/-- C4 counterexample: the claim predicts that a line whose raw bytes are not
valid UTF-8 is skipped and iteration continues, so the input consisting of
the undecodable byte `0xFF` followed by the line `1` would yield
`([Json.num 1], none)`; the code instead stops with an uncaught
`UnicodeDecodeError` before any further record. -/
theorem read_jsonl_undecodable_not_skipped :
    read_jsonl demoParse [RawLine.bytes [0xFF], RawLine.text "1"] ≠
      ([Json.num 1], none) := by decide

/-- C4 amended: a line whose raw bytes are not decodable as UTF-8 is not
skipped — `read_jsonl` raises an uncaught `UnicodeDecodeError` at that line;
records from earlier lines have been yielded and nothing from that line or
any later line is produced. -/
theorem read_jsonl_undecodable_raises (parse : String → Except JsonErr Json)
    (pre : List String) (bs : List Nat) (post : List RawLine)
    (hpre : ∀ s ∈ pre, pyStrip s ≠ "" → (parse (pyStrip s)).isOk)
    (hbs : utf8Decode bs = none) :
    read_jsonl parse (pre.map RawLine.text ++ RawLine.bytes bs :: post) =
      (jsonlRecords parse pre, some ReadErr.unicodeDecodeError) := by
  have key := read_jsonl_go_text_ok parse pre (RawLine.bytes bs :: post) 1 hpre
  rw [read_jsonl, key]
  simp [read_jsonl_go, lineText, hbs]

/-- Witness for C4's amended claim: one good line, then the byte `0xFF`. -/
theorem read_jsonl_undecodable_raises_witness :
    read_jsonl demoParse
      (["1"].map RawLine.text ++ RawLine.bytes [0xFF] :: [RawLine.text "2"]) =
      ([Json.num 1], some ReadErr.unicodeDecodeError) :=
  (read_jsonl_undecodable_raises demoParse ["1"] [0xFF] [RawLine.text "2"]
    (by decide) (by decide)).trans (by decide)

/-- An exception (a Python `Exception` subclass) raised by one step of the
incremental array iterator in `read_json_array`: either the underlying
handle's I/O/runtime failure or the parser's malformed-JSON failure. -/
inductive PyExn where
  | ioError (msg : String)
  | decodeError (msg : String)
  deriving DecidableEq

/-- `str(err)` for the exceptions above. -/
def pyExnMessage : PyExn → String
  | .ioError m => m
  | .decodeError m => m

/-- The loop of `read_json_array` (readers.py lines 83-87): the incremental
iterator (`ijson.items`) is modelled as the sequence of steps it performs,
each yielding an item or raising. Every raised exception — of either kind —
is caught by the `except Exception` clause and re-raised as
`json.JSONDecodeError(f"Error parsing JSON array: \x7berr\x7d", "", 0)`. -/
def read_json_array_go : List (Except PyExn Json) → List Json × Option ReadErr
  | [] => ([], none)
  | .ok j :: rest =>
    let r := read_json_array_go rest
    (j :: r.1, r.2)
  | .error e :: _ =>
    ([], some (.jsonDecodeError ("Error parsing JSON array: " ++ pyExnMessage e)
        "" 0))

/-- `read_json_array`: yield the items produced by the incremental iterator,
normalizing any failure into a format-decode error. -/
def read_json_array (steps : List (Except PyExn Json)) :
    List Json × Option ReadErr :=
  read_json_array_go steps

/-- C10: whenever any exception is raised while `read_json_array` iterates
array items — an I/O/runtime failure of the handle just as much as a
malformed-JSON failure — the reader re-raises it as a format-decode error:
a `JSONDecodeError` at position 0 wrapping the original message. The items
already produced have been yielded, nothing later is, and the two
error kinds yield literally identical results whenever their messages
agree, so a caller can never distinguish them. -/
theorem read_json_array_wraps_every_exception (items : List Json) (e : PyExn)
    (rest : List (Except PyExn Json)) :
    read_json_array (items.map Except.ok ++ Except.error e :: rest) =
      (items,
       some (.jsonDecodeError ("Error parsing JSON array: " ++ pyExnMessage e)
         "" 0)) ∧
    ∀ m : String,
      read_json_array (items.map Except.ok ++ Except.error (PyExn.ioError m) :: rest) =
      read_json_array (items.map Except.ok ++ Except.error (PyExn.decodeError m) :: rest) := by
  constructor
  · induction items with
    | nil => rfl
    | cons j items ih =>
      simp only [List.map_cons, List.cons_append, List.append_eq,
        read_json_array, read_json_array_go] at ih ⊢
      rw [ih]
  · intro m
    induction items with
    | nil => rfl
    | cons j items ih =>
      simp only [List.map_cons, List.cons_append, List.append_eq,
        read_json_array, read_json_array_go] at ih ⊢
      rw [ih]

/-- A CSV field value as it appears in a yielded row dict: a text field, an
integer, a float or a boolean produced by the pandas parser's type
inference (a float carries the trimmed literal the engine parses — its
floating-point value lies outside the model and no claim inspects it), the
`NaN` that pandas substitutes for NA sentinels, the `restval` fill `None`
for a missing trailing field, and the `restkey` overflow list for extra
fields. -/
inductive CsvVal where
  | str (s : String)
  | int (n : Int)
  | float (lit : String)
  | bool (b : Bool)
  | nan
  | null
  | overflow (extra : List String)
  deriving DecidableEq

/-- A yielded CSV row dict, in insertion order: header keys are `some name`,
and the `restkey` (Python `None`) is the key `none`. -/
abbrev CsvRecord := List (Option String × CsvVal)

/-- `csv.DictReader` row construction: `dict(zip(fieldnames, row))`, then
missing trailing fields are filled with `restval` (`None`) and extra fields
are collected in order under `restkey` (`None`). -/
def dictReaderRow (header row : List String) : CsvRecord :=
  let padded := row.map CsvVal.str ++
    List.replicate (header.length - row.length) CsvVal.null
  let base := (header.zip padded).map (fun p => (some p.1, p.2))
  if header.length < row.length then
    base ++ [(none, CsvVal.overflow (row.drop header.length))]
  else base

/-- The reader's malformed-row check (readers.py line 121):
`any(v is None for v in row.values())`. -/
def hasNullField (r : CsvRecord) : Bool :=
  r.any (fun p => decide (p.2 = CsvVal.null))

/-- The unbounded/streaming mode of `read_csv` (readers.py lines 118-123):
iterate `csv.DictReader` over the tokenized data rows. `lineNum` is the
number of physical lines already consumed (`reader.line_num`); the header
counts as one. A completely empty row is skipped by `DictReader`; a row with
a `None`-valued field raises `RuntimeError("Malformed CSV row at line N")`,
which the enclosing `except Exception` re-wraps as
`RuntimeError("Error reading CSV: ...")`. -/
def runDictReader (header : List String) :
    List (List String) → Nat → List CsvRecord × Option ReadErr
  | [], _ => ([], none)
  | row :: rest, lineNum =>
    if row.isEmpty then runDictReader header rest (lineNum + 1)
    else
      let d := dictReaderRow header row
      if hasNullField d then
        ([], some (.runtimeError
          ("Error reading CSV: Malformed CSV row at line " ++
            toString (lineNum + 1))))
      else
        let r := runDictReader header rest (lineNum + 1)
        (d :: r.1, r.2)

/-- A cell with its surrounding whitespace removed and one optional leading
sign dropped, as the pandas numeric converters tokenize it. -/
def unsigned (s : String) : List Char :=
  match (pyStrip s).data with
  | '+' :: cs => cs
  | '-' :: cs => cs
  | cs => cs

/-- At least one character, all ASCII digits. -/
def digitsOnly (cs : List Char) : Bool :=
  !cs.isEmpty && cs.all Char.isDigit

/-- Integer literal recognition of the pandas CSV parser: an optional sign
followed by at least one digit, surrounding whitespace tolerated. -/
def isIntCell (s : String) : Bool :=
  digitsOnly (unsigned s)

/-- The integer value of an integer-literal cell. -/
def intVal (s : String) : Int :=
  let mag : Int :=
    Int.ofNat ((unsigned s).foldl (fun a c => a * 10 + (c.toNat - 48)) 0)
  match (pyStrip s).data with
  | '-' :: _ => -mag
  | _ => mag

/-- A decimal mantissa: at least one digit and at most one dot, nothing
else — covers `12`, `1.5`, `.5` and `5.`. -/
def decMantissa (cs : List Char) : Bool :=
  decide (cs.count '.' ≤ 1) && !(cs.filter Char.isDigit).isEmpty &&
    cs.all (fun c => Char.isDigit c || decide (c = '.'))

/-- An optional exponent suffix: empty, or `e` with an optionally signed
digit run. -/
def expPart : List Char → Bool
  | [] => true
  | 'e' :: rest =>
    match rest with
    | '+' :: ds => digitsOnly ds
    | '-' :: ds => digitsOnly ds
    | ds => digitsOnly ds
  | _ => false

/-- Float literal body, on the lower-cased, unsigned, trimmed cell: `inf`,
`infinity` and `nan` in any letter case, or a decimal mantissa with an
optional exponent. -/
def floatBody (cs : List Char) : Bool :=
  cs == ['i', 'n', 'f'] || cs == ['i', 'n', 'f', 'i', 'n', 'i', 't', 'y'] ||
  cs == ['n', 'a', 'n'] ||
  (decMantissa (cs.takeWhile (fun c => !decide (c = 'e'))) &&
    expPart (cs.dropWhile (fun c => !decide (c = 'e'))))

/-- Float literal recognition of the pandas CSV parser. -/
def isFloatCell (s : String) : Bool :=
  floatBody ((unsigned s).map Char.toLower)

/-- Boolean literal recognition of the pandas CSV parser. -/
def isBoolCell (s : String) : Bool :=
  ["True", "TRUE", "true", "False", "FALSE", "false"].contains (pyStrip s)

/-- The value of a boolean-literal cell. -/
def boolVal (s : String) : Bool :=
  ["True", "TRUE", "true"].contains (pyStrip s)

/-- The default `na_values` sentinels of `pandas.read_csv`, which become
`NaN` in every inferred column kind, the `object` (text) kind included. -/
def naTokens : List String :=
  ["", "#N/A", "#N/A N/A", "#NA", "-1.#IND", "-1.#QNAN", "-NaN", "-nan",
   "1.#IND", "1.#QNAN", "<NA>", "N/A", "NA", "NULL", "NaN", "None",
   "n/a", "nan", "null"]

/-- Whether a cell is an NA sentinel. (Matched on the trimmed cell — a
deliberate superset of the engine's exact matching, so that `pandasInert`
below excludes every cell the engine might coerce.) -/
def isNaCell (s : String) : Bool :=
  naTokens.contains (pyStrip s)

/-- A cell the pandas engine is guaranteed to leave as its own text: not an
integer, float or boolean literal and not an NA sentinel. The recognizers
err on the side of matching too much, never too little, so a column of
inert cells survives every branch of the engine's inference unchanged. -/
def pandasInert (s : String) : Bool :=
  !(isIntCell s || isFloatCell s || isBoolCell s || isNaCell s)

/-- Per-column dtype inference the pandas engine applies to each chunk it
parses, following the engine's priority: an integer column when every cell
is an integer literal; a float column when every cell is numeric or an NA
sentinel; a boolean column when every cell is a boolean literal; otherwise
an `object` (text) column in which NA sentinels still become `NaN`. -/
def pandasCol (cells : List String) : List CsvVal :=
  if cells.all isIntCell then
    cells.map (fun c => CsvVal.int (intVal c))
  else if cells.all (fun c => isFloatCell c || isIntCell c || isNaCell c) then
    cells.map (fun c =>
      if isNaCell c then CsvVal.nan else CsvVal.float (pyStrip c))
  else if cells.all isBoolCell then
    cells.map (fun c => CsvVal.bool (boolVal c))
  else
    cells.map (fun c => if isNaCell c then CsvVal.nan else CsvVal.str c)

/-- `DataFrame.to_dict(orient="records")` for one parsed chunk: the chunk is
held column-wise (each column built by `pandasCol` from the cells of that
column, a short row contributing its cells only as far as it reaches), and
each row is emitted as a dict keyed by the header, in row order. -/
def pandasChunkRecords (header : List String) (rows : List (List String)) :
    List CsvRecord :=
  let cols := (List.range header.length).map
    (fun j => pandasCol (rows.map (fun r => r.getD j "")))
  (List.range rows.length).map (fun i =>
    (header.zip (cols.map (fun c => c.getD i (CsvVal.str "")))).map
      (fun p => (some p.1, p.2)))

/-- Fuel-driven worker for `chunksOf`; the fuel starts at the list length,
which bounds the number of blocks. -/
def chunksOfAux (n : Nat) : Nat → List α → List (List α)
  | 0, _ => []
  | _, [] => []
  | fuel + 1, x :: xs => (x :: xs.take (n - 1)) :: chunksOfAux n fuel (xs.drop (n - 1))

/-- Reading in blocks of `n` rows, as `pandas.read_csv(..., chunksize=n)`
does: each block holds the next `n` (or fewer, at the end) data rows. -/
def chunksOf (n : Nat) (l : List α) : List (List α) :=
  chunksOfAux n l.length l

/-- `read_csv` (readers.py lines 93-138) over the tokenized physical rows of
the source (header row first). With `chunk_size=None` it streams through
`csv.DictReader`; with a chunk size it decodes blocks of that many rows
through the pandas engine (which skips blank lines, then applies per-chunk
column type inference) and flattens each block in order. An entirely empty
source makes pandas raise `EmptyDataError("No columns to parse from file")`,
re-wrapped by the `except Exception` clause. -/
def read_csv (rows : List (List String)) (chunkSize : Option Nat) :
    List CsvRecord × Option ReadErr :=
  match chunkSize with
  | none =>
    match rows with
    | [] => ([], none)
    | header :: dataRows => runDictReader header dataRows 1
  | some n =>
    match rows with
    | [] => ([], some (.runtimeError
        "Error reading CSV: No columns to parse from file"))
    | header :: dataRows =>
      ((chunksOf n (dataRows.filter (fun r => !r.isEmpty))).flatMap
          (pandasChunkRecords header), none)

example : read_csv [["k", "v"], ["A", "B"], ["C", "D"]] none =
    ([[(some "k", CsvVal.str "A"), (some "v", CsvVal.str "B")],
      [(some "k", CsvVal.str "C"), (some "v", CsvVal.str "D")]], none) := by
  decide

example : read_csv [["k", "v"], ["A", "B"], ["C", "D"]] (some 1) =
    read_csv [["k", "v"], ["A", "B"], ["C", "D"]] none := by decide

example : read_csv [["a"], ["1"]] (some 1) =
    ([[(some "a", CsvVal.int 1)]], none) := by decide

example : read_csv [["a"], ["1.5"]] (some 1) =
    ([[(some "a", CsvVal.float "1.5")]], none) := by decide

example : read_csv [["a"], ["True"]] (some 1) =
    ([[(some "a", CsvVal.bool true)]], none) := by decide

example : read_csv [["a", "b"], ["x", "NA"]] (some 1) =
    ([[(some "a", CsvVal.str "x"), (some "b", CsvVal.nan)]], none) := by decide

example : read_csv [["a"], ["1e3"]] (some 1) ≠
    read_csv [["a"], ["1e3"]] none := by decide

example : read_csv [["a", "b"], ["1", "2"], ["badrowwithoutcomma"]] none =
    ([[(some "a", CsvVal.str "1"), (some "b", CsvVal.str "2")]],
     some (.runtimeError "Error reading CSV: Malformed CSV row at line 3")) := by
  decide

/-- Reading back a list through `getD` over its index range reproduces it. -/
theorem map_getD_range {α : Type} (l : List α) (d : α) :
    (List.range l.length).map (fun j => l.getD j d) = l := by
  apply List.ext_getElem
  · simp
  · intro i h1 h2
    simp only [List.getElem_map, List.getElem_range]
    exact List.getD_eq_getElem l d h2

/-- On a row of exactly header width, `DictReader` neither pads nor
overflows: the dict is just the header zipped with the text fields. -/
theorem dictReaderRow_rect (header row : List String)
    (h : row.length = header.length) :
    dictReaderRow header row =
      (header.zip (row.map CsvVal.str)).map (fun p => (some p.1, p.2)) := by
  simp [dictReaderRow, h]

/-- A row of exactly header width passes the malformed-row check. -/
theorem hasNullField_rect (header row : List String)
    (h : row.length = header.length) :
    hasNullField (dictReaderRow header row) = false := by
  rw [dictReaderRow_rect _ _ h, hasNullField, List.any_eq_false]
  intro p hp
  simp only [List.mem_map] at hp
  obtain ⟨q, hq, rfl⟩ := hp
  have h2 := (List.of_mem_zip hq).2
  simp only [List.mem_map] at h2
  obtain ⟨c, _, hc⟩ := h2
  simp [← hc]

/-- A non-empty row strictly shorter than the header trips the
malformed-row check: some field was filled with `restval` `None`. -/
theorem hasNullField_short (header bad : List String)
    (hlt : bad.length < header.length) :
    hasNullField (dictReaderRow header bad) = true := by
  rw [dictReaderRow, hasNullField]
  rw [if_neg (by omega)]
  apply List.any_eq_true.mpr
  have hplen : (bad.map CsvVal.str ++
      List.replicate (header.length - bad.length) CsvVal.null).length =
      header.length := by
    simp; omega
  have hzlen : bad.length < (header.zip (bad.map CsvVal.str ++
      List.replicate (header.length - bad.length) CsvVal.null)).length := by
    rw [List.length_zip, hplen]; omega
  have hmlen : bad.length < ((header.zip (bad.map CsvVal.str ++
      List.replicate (header.length - bad.length) CsvVal.null)).map
        (fun p => (some p.1, p.2))).length := by
    rw [List.length_map]; exact hzlen
  refine ⟨_, List.getElem_mem hmlen, ?_⟩
  simp only [List.getElem_map, List.getElem_zip]
  rw [List.getElem_append_right (by simp)]
  simp [List.getElem_replicate]

/-- `runDictReader` on a run of header-width rows yields each row's dict in
order, then continues with the remaining rows, the physical line counter
advanced accordingly. -/
theorem runDictReader_append (header : List String)
    (pre rest : List (List String)) (hh : header ≠ [])
    (hpre : ∀ r ∈ pre, r.length = header.length) :
    ∀ lineNum, runDictReader header (pre ++ rest) lineNum =
      (pre.map (dictReaderRow header) ++
        (runDictReader header rest (lineNum + pre.length)).1,
       (runDictReader header rest (lineNum + pre.length)).2) := by
  induction pre with
  | nil => intro ln; simp
  | cons row tl ih =>
    intro ln
    have hr := hpre row (List.mem_cons_self row tl)
    have htl : ∀ r ∈ tl, r.length = header.length :=
      fun r hrr => hpre r (List.mem_cons_of_mem row hrr)
    have hne : row.isEmpty = false := by
      cases row with
      | nil =>
        exfalso
        exact hh (List.length_eq_zero.mp hr.symm)
      | cons a l => rfl
    simp only [List.cons_append, List.append_eq, runDictReader, hne,
      hasNullField_rect header row hr, Bool.false_eq_true, if_false]
    rw [ih htl (ln + 1)]
    simp [Nat.add_assoc, Nat.add_comm 1 tl.length]

/-- `runDictReader` over only header-width rows: every row is yielded, no
error is raised. -/
theorem runDictReader_rect (header : List String) (rows : List (List String))
    (hh : header ≠ []) (hrect : ∀ r ∈ rows, r.length = header.length) :
    runDictReader header rows 1 = (rows.map (dictReaderRow header), none) := by
  have key := runDictReader_append header rows [] hh hrect 1
  simpa [runDictReader] using key

/-- A non-empty column of inert cells is left as a text column by every
branch of the inference. -/
theorem pandasCol_text (cells : List String)
    (hc : ∀ c ∈ cells, pandasInert c) (hne : cells ≠ []) :
    pandasCol cells = cells.map CsvVal.str := by
  have hkinds : ∀ c ∈ cells, isIntCell c = false ∧ isFloatCell c = false ∧
      isBoolCell c = false ∧ isNaCell c = false := by
    intro c hcm
    have h := hc c hcm
    simp only [pandasInert, Bool.not_eq_true', Bool.or_eq_false_iff] at h
    exact ⟨h.1.1.1, h.1.1.2, h.1.2, h.2⟩
  obtain ⟨c0, cs, rfl⟩ : ∃ c0 cs, cells = c0 :: cs := by
    cases cells with
    | nil => exact absurd rfl hne
    | cons c0 cs => exact ⟨c0, cs, rfl⟩
  have h0 := hkinds c0 (List.mem_cons_self c0 cs)
  rw [pandasCol, if_neg ?hint, if_neg ?hflo, if_neg ?hboo]
  case hint =>
    intro hall
    have h := List.all_eq_true.mp hall c0 (List.mem_cons_self c0 cs)
    rw [h0.1] at h
    exact Bool.false_ne_true h
  case hflo =>
    intro hall
    have h := List.all_eq_true.mp hall c0 (List.mem_cons_self c0 cs)
    rw [h0.1, h0.2.1, h0.2.2.2] at h
    simp at h
  case hboo =>
    intro hall
    have h := List.all_eq_true.mp hall c0 (List.mem_cons_self c0 cs)
    rw [h0.2.2.1] at h
    exact Bool.false_ne_true h
  apply List.map_congr_left
  intro a ha
  rw [if_neg (by simp [(hkinds a ha).2.2.2])]

/-- On a chunk of header-width rows none of whose cells is an integer
literal, the pandas column round-trip reproduces exactly the records that
`csv.DictReader` builds for the same rows. -/
theorem pandasChunkRecords_rect_noint (header : List String)
    (rows : List (List String))
    (hrect : ∀ r ∈ rows, r.length = header.length)
    (hnoint : ∀ r ∈ rows, ∀ c ∈ r, pandasInert c) :
    pandasChunkRecords header rows = rows.map (dictReaderRow header) := by
  by_cases hempty : rows = []
  · subst hempty; rfl
  · apply List.ext_getElem
    · simp [pandasChunkRecords]
    · intro i h1 h2
      simp only [pandasChunkRecords, List.getElem_map, List.getElem_range,
        List.length_map, List.length_range] at h1 h2 ⊢
      have hrlen : rows[i].length = header.length :=
        hrect rows[i] (List.getElem_mem h2)
      have hcols :
          ((List.range header.length).map
              (fun j => pandasCol (rows.map (fun r => r.getD j "")))).map
            (fun c => c.getD i (CsvVal.str "")) = rows[i].map CsvVal.str := by
        apply List.ext_getElem
        · simp [hrlen]
        · intro j hj1 hj2
          simp only [List.length_map, List.length_range] at hj1
          simp only [List.getElem_map, List.getElem_range]
          rw [pandasCol_text (rows.map (fun r => r.getD j "")) ?hcells ?hne]
          case hne => simpa using hempty
          case hcells =>
            intro c hc
            simp only [List.mem_map] at hc
            obtain ⟨r, hr, rfl⟩ := hc
            have hjr : j < r.length := by rw [hrect r hr]; exact hj1
            rw [List.getD_eq_getElem r "" hjr]
            exact hnoint r hr _ (List.getElem_mem hjr)
          have hlen1 : i < ((rows.map (fun r => r.getD j "")).map
              CsvVal.str).length := by simpa using h2
          rw [List.getD_eq_getElem _ _ hlen1]
          simp only [List.getElem_map]
          have hjri : j < rows[i].length := by omega
          rw [List.getD_eq_getElem rows[i] "" hjri]
      rw [hcols, dictReaderRow_rect header rows[i] hrlen]

/-- Flattening the blocks of `chunksOfAux` is the same as mapping over the
rows, whenever each whole block maps row-wise. -/
theorem flatMap_chunksOfAux {α β : Type} (n : Nat) (F : List α → List β)
    (g : α → β) (P : α → Prop)
    (hF : ∀ c : List α, (∀ x ∈ c, P x) → F c = c.map g) :
    ∀ fuel (l : List α), l.length ≤ fuel → (∀ x ∈ l, P x) →
      (chunksOfAux n fuel l).flatMap F = l.map g := by
  intro fuel
  induction fuel with
  | zero =>
    intro l hl _
    have : l = [] := List.length_eq_zero.mp (Nat.le_zero.mp hl)
    subst this; rfl
  | succ fuel ih =>
    intro l hl hP
    cases l with
    | nil => rfl
    | cons x xs =>
      simp only [chunksOfAux, List.flatMap_cons]
      rw [hF (x :: xs.take (n - 1)) ?hc]
      rw [ih (xs.drop (n - 1)) ?hlen ?hp]
      · rw [← List.map_append, List.cons_append, List.take_append_drop]
      case hc =>
        intro y hy
        rcases List.mem_cons.mp hy with h | h
        · subst h; exact hP y (List.mem_cons_self y xs)
        · exact hP y (List.mem_cons_of_mem x (List.take_subset _ _ h))
      case hlen =>
        simp only [List.length_drop]
        simp only [List.length_cons] at hl
        omega
      case hp =>
        intro y hy
        exact hP y (List.mem_cons_of_mem x (List.drop_subset _ _ hy))

/-- `chunksOf` version of the flattening lemma. -/
theorem chunksOf_flatMap {α β : Type} (n : Nat) (F : List α → List β)
    (g : α → β) (P : α → Prop) (l : List α) (hP : ∀ x ∈ l, P x)
    (hF : ∀ c : List α, (∀ x ∈ c, P x) → F c = c.map g) :
    (chunksOf n l).flatMap F = l.map g :=
  flatMap_chunksOfAux n F g P hF l.length l le_rfl hP

/-- C1 counterexample: the CSV source with header `a` and single data row `1`
is valid (well-formed header, no ragged rows), yet chunked reading with
chunk size 1 does not produce the same records as unbounded reading: the
pandas engine of the chunked mode coerces the field text `1` to an integer,
while `csv.DictReader` keeps it as text. -/
theorem read_csv_chunking_changes_content :
    read_csv [["a"], ["1"]] (some 1) ≠ read_csv [["a"], ["1"]] none := by
  decide

/-- C1 amended: for valid CSV input (non-empty, duplicate-free header and
only header-width rows) and any chunk size ≥ 1, chunked and unbounded
reading agree — same keys, same values, same order — provided every cell is
inert under the pandas type inference of chunked mode: no cell is an
integer, float or boolean literal, nor an NA sentinel. In general chunked
mode goes through the pandas engine, whose inference coerces such cells
(`"1"` to an integer, `"1.5"` to a float, `"True"` to a boolean, `""` or
`"NA"` to `NaN`), so chunking can change the observed values, while keys
and order are unaffected. -/
theorem read_csv_chunk_equiv (header : List String)
    (dataRows : List (List String)) (n : Nat)
    (hn : 1 ≤ n) (hh : header ≠ []) (hnodup : header.Nodup)
    (hrect : ∀ r ∈ dataRows, r.length = header.length)
    (hnoint : ∀ r ∈ dataRows, ∀ c ∈ r, pandasInert c) :
    read_csv (header :: dataRows) (some n) =
      read_csv (header :: dataRows) none := by
  simp only [read_csv]
  rw [runDictReader_rect header dataRows hh hrect]
  have hfilter : dataRows.filter (fun r => !r.isEmpty) = dataRows := by
    apply List.filter_eq_self.mpr
    intro r hr
    have := hrect r hr
    cases r with
    | nil => exact absurd (List.length_eq_zero.mp this.symm) hh
    | cons a l => rfl
  rw [hfilter]
  rw [chunksOf_flatMap n (pandasChunkRecords header) (dictReaderRow header)
    (fun r => r.length = header.length ∧ ∀ c ∈ r, pandasInert c) dataRows
    (fun r hr => ⟨hrect r hr, hnoint r hr⟩)
    (fun c hc => pandasChunkRecords_rect_noint header c
      (fun r hr => (hc r hr).1) (fun r hr => (hc r hr).2))]

/-- Witness for C1's amended claim: the spec's concrete scenario — CSV
source `k,v / A,B / C,D` with chunk size 1 equals unbounded mode, and both
yield the two text records in order. -/
theorem read_csv_chunk_equiv_witness :
    read_csv [["k", "v"], ["A", "B"], ["C", "D"]] (some 1) =
      read_csv [["k", "v"], ["A", "B"], ["C", "D"]] none ∧
    read_csv [["k", "v"], ["A", "B"], ["C", "D"]] none =
      ([[(some "k", CsvVal.str "A"), (some "v", CsvVal.str "B")],
        [(some "k", CsvVal.str "C"), (some "v", CsvVal.str "D")]], none) :=
  ⟨read_csv_chunk_equiv ["k", "v"] [["A", "B"], ["C", "D"]] 1
    (by decide) (by decide) (by decide) (by decide) (by decide), by decide⟩

/-- Whether a yielded CSV field value is text. -/
def isTextVal : CsvVal → Bool
  | .str _ => true
  | _ => false

/-- C2 counterexample: on the valid CSV source with header `a` and data row
`1`, batched mode (chunk size 1) yields a field value that is not text —
the pandas engine coerces it to an integer. -/
theorem read_csv_chunked_value_not_text :
    ¬ ∀ rec ∈ (read_csv [["a"], ["1"]] (some 1)).1, ∀ p ∈ rec,
      isTextVal p.2 := by decide

/-- C2 amended: in unbounded mode, for valid CSV input every field value of
every yielded record is text — `csv.DictReader` performs no type coercion;
in batched mode the pandas engine's type inference may instead produce
non-text values. -/
theorem read_csv_unbounded_values_text (header : List String)
    (dataRows : List (List String)) (hh : header ≠ [])
    (hrect : ∀ r ∈ dataRows, r.length = header.length) :
    ∀ rec ∈ (read_csv (header :: dataRows) none).1, ∀ p ∈ rec,
      isTextVal p.2 := by
  simp only [read_csv]
  rw [runDictReader_rect header dataRows hh hrect]
  intro rec hrec p hp
  simp only [List.mem_map] at hrec
  obtain ⟨row, hrow, rfl⟩ := hrec
  rw [dictReaderRow_rect _ _ (hrect row hrow)] at hp
  simp only [List.mem_map] at hp
  obtain ⟨q, hq, rfl⟩ := hp
  have hmem := (List.of_mem_zip hq).2
  simp only [List.mem_map] at hmem
  obtain ⟨c, _, hc⟩ := hmem
  simp [← hc, isTextVal]

/-- Witness for C2's amended claim: all values of the unbounded read of
`k,v / A,B` are text. -/
theorem read_csv_unbounded_values_text_witness :
    ((read_csv [["k", "v"], ["A", "B"]] none).1.all
      (fun rec => rec.all (fun p => isTextVal p.2))) = true :=
  List.all_eq_true.mpr (fun rec hrec => List.all_eq_true.mpr (fun p hp =>
    read_csv_unbounded_values_text ["k", "v"] [["A", "B"]]
      (by decide) (by decide) rec hrec p hp))

/-- C6: in unbounded mode, a non-empty data row with fewer fields than the
header is fatal: the rows before it are yielded, then `read_csv` raises a
`RuntimeError` whose message carries the malformed row's physical line
number (the header is line 1), and no later row is yielded. -/
theorem read_csv_ragged_fatal (header : List String)
    (pre : List (List String)) (bad : List String)
    (post : List (List String)) (hh : header ≠ [])
    (hpre : ∀ r ∈ pre, r.length = header.length)
    (hbne : bad ≠ []) (hlt : bad.length < header.length) :
    read_csv (header :: (pre ++ bad :: post)) none =
      (pre.map (dictReaderRow header),
       some (.runtimeError ("Error reading CSV: Malformed CSV row at line " ++
         toString (pre.length + 2)))) := by
  simp only [read_csv]
  rw [runDictReader_append header pre (bad :: post) hh hpre 1]
  have hbe : bad.isEmpty = false := by
    cases bad with
    | nil => exact absurd rfl hbne
    | cons a l => rfl
  simp only [runDictReader, hbe, Bool.false_eq_true, if_false,
    hasNullField_short header bad hlt, if_true]
  have harith : 1 + pre.length + 1 = pre.length + 2 := by omega
  rw [harith]
  simp

/-- Witness for C6: the spec's concrete scenario `a,b / 1,2 /
badrowwithoutcomma` — the first data row is yielded, then the malformed-row
error names line 3. -/
theorem read_csv_ragged_fatal_witness :
    read_csv [["a", "b"], ["1", "2"], ["badrowwithoutcomma"]] none =
      ([[(some "a", CsvVal.str "1"), (some "b", CsvVal.str "2")]],
       some (.runtimeError "Error reading CSV: Malformed CSV row at line 3")) :=
  (read_csv_ragged_fatal ["a", "b"] [["1", "2"]] ["badrowwithoutcomma"] []
    (by decide) (by decide) (by decide) (by decide)).trans (by decide)

/-- A columnar table or record batch as the pyarrow engine exposes it: named
columns of values. (`Json` serves as the dynamic cell value carrier.) -/
structure ColumnTable where
  names : List String
  cols : List (List Json)
  deriving DecidableEq

/-- `num_rows` of a columnar table; pyarrow keeps all columns the same
length, so the first column's length is the row count. -/
def tableNrows (t : ColumnTable) : Nat :=
  match t.cols with
  | [] => 0
  | c :: _ => c.length

/-- The `i`-th row of a columnar table in row-major form: each column name
paired with that column's `i`-th value. -/
def rowOfTable (t : ColumnTable) (i : Nat) : List (String × Json) :=
  t.names.zip (t.cols.map (fun c => c.getD i Json.null))

/-- `RecordBatch.to_pylist` / row-major form of a table: one dict per row,
keyed by column name, in row order. -/
def toPylist (t : ColumnTable) : List (List (String × Json)) :=
  (List.range (tableNrows t)).map (rowOfTable t)

/-- The first `n` rows of a table, column-wise, as pyarrow slices batches. -/
def batchTake (n : Nat) (t : ColumnTable) : ColumnTable :=
  ⟨t.names, t.cols.map (List.take n)⟩

/-- The remaining rows after the first `n`, column-wise. -/
def batchDrop (n : Nat) (t : ColumnTable) : ColumnTable :=
  ⟨t.names, t.cols.map (List.drop n)⟩

/-- Fuel-driven worker for `iterBatches`; the row count bounds the number of
batches whenever the batch size is at least 1. -/
def iterBatchesAux (n : Nat) : Nat → ColumnTable → List ColumnTable
  | 0, _ => []
  | fuel + 1, t =>
    if tableNrows t = 0 then []
    else batchTake n t :: iterBatchesAux n fuel (batchDrop n t)

/-- `ParquetFile.iter_batches(batch_size=n)`: consecutive row slices of at
most `n` rows each, in file order. -/
def iterBatches (n : Nat) (t : ColumnTable) : List ColumnTable :=
  iterBatchesAux n (tableNrows t) t

/-- The row-batch size the pyarrow engine uses when the caller leaves
`batch_size` unspecified (`iter_batches()` default). -/
def defaultBatchRows : Nat := 65536

/-- What the Parquet container holds once opened: either a decodable table
or structurally invalid (non-columnar / corrupt) content, on which
`pq.ParquetFile` raises at open time. -/
inductive PqContent where
  | table (t : ColumnTable)
  | corrupt (msg : String)

/-- The two source variants `read_parquet` accepts: a filesystem path, or an
already-open handle whose contents are fully drained into an in-memory
buffer first. -/
inductive PqSource where
  | path (c : PqContent)
  | handle (c : PqContent)

/-- `read_parquet` (readers.py lines 141-175): open the container — a
structural failure is re-raised at open time as
`RuntimeError("Error opening Parquet file: ...")` for a path source and
`RuntimeError("Error opening Parquet buffer: ...")` for a handle source,
before any record is yielded — then iterate row batches (of the
caller-supplied size, or the engine default when unspecified) and yield
each batch's rows via `to_pylist`, in order. -/
def read_parquet (src : PqSource) (batchSize : Option Nat) :
    List (List (String × Json)) × Option ReadErr :=
  match src with
  | .path (.corrupt msg) =>
    ([], some (.runtimeError ("Error opening Parquet file: " ++ msg)))
  | .handle (.corrupt msg) =>
    ([], some (.runtimeError ("Error opening Parquet buffer: " ++ msg)))
  | .path (.table t) =>
    ((iterBatches (batchSize.getD defaultBatchRows) t).flatMap toPylist, none)
  | .handle (.table t) =>
    ((iterBatches (batchSize.getD defaultBatchRows) t).flatMap toPylist, none)

example : read_parquet
    (.path (.table ⟨["x", "y"],
      [[Json.num 10, Json.num 20], [Json.str "foo", Json.str "bar"]]⟩))
    (some 1) =
    ([[("x", Json.num 10), ("y", Json.str "foo")],
      [("x", Json.num 20), ("y", Json.str "bar")]], none) := by decide

/-- Slicing the first `n` rows off a table splits its row-major form. -/
theorem toPylist_take_drop (n : Nat) (t : ColumnTable) :
    toPylist (batchTake n t) ++ toPylist (batchDrop n t) = toPylist t := by
  have htake : tableNrows (batchTake n t) = min n (tableNrows t) := by
    cases t with
    | mk names cols =>
      cases cols with
      | nil => simp [tableNrows, batchTake]
      | cons c cs => simp [tableNrows, batchTake, List.length_take]
  have hdrop : tableNrows (batchDrop n t) = tableNrows t - n := by
    cases t with
    | mk names cols =>
      cases cols with
      | nil => simp [tableNrows, batchDrop]
      | cons c cs => simp [tableNrows, batchDrop, List.length_drop]
  have hsplit : tableNrows t = min n (tableNrows t) + (tableNrows t - n) := by
    omega
  conv_rhs => rw [toPylist, hsplit, List.range_add, List.map_append]
  rw [toPylist, toPylist, htake, hdrop]
  congr 1
  · apply List.map_congr_left
    intro i hi
    have hin : i < n := by
      have := List.mem_range.mp hi
      omega
    rw [rowOfTable, rowOfTable, batchTake]
    simp only [List.map_map]
    apply congrArg
    apply List.map_congr_left
    intro c _
    simp only [Function.comp_apply]
    rw [List.getD_eq_getElem?_getD, List.getD_eq_getElem?_getD,
      List.getElem?_take, if_pos hin]
  · rw [List.map_map]
    apply List.map_congr_left
    intro i hi
    have hilt : i < tableNrows t - n := List.mem_range.mp hi
    have hmin : min n (tableNrows t) = n := by omega
    simp only [Function.comp_apply, hmin]
    rw [rowOfTable, rowOfTable, batchDrop]
    simp only [List.map_map]
    apply congrArg
    apply List.map_congr_left
    intro c _
    simp only [Function.comp_apply]
    rw [List.getD_eq_getElem?_getD, List.getD_eq_getElem?_getD,
      List.getElem?_drop]

/-- Flattening the row batches of a table reproduces its row-major form,
for any batch size of at least one row. -/
theorem iterBatchesAux_flatten (n : Nat) (hn : 1 ≤ n) :
    ∀ fuel (t : ColumnTable), tableNrows t ≤ fuel →
      (iterBatchesAux n fuel t).flatMap toPylist = toPylist t := by
  intro fuel
  induction fuel with
  | zero =>
    intro t ht
    have h0 : tableNrows t = 0 := Nat.le_zero.mp ht
    simp [iterBatchesAux, toPylist, h0]
  | succ fuel ih =>
    intro t ht
    by_cases h0 : tableNrows t = 0
    · simp [iterBatchesAux, toPylist, h0]
    · simp only [iterBatchesAux, h0, if_false, List.flatMap_cons]
      rw [ih (batchDrop n t) ?hfuel, toPylist_take_drop]
      case hfuel =>
        have hdrop : tableNrows (batchDrop n t) = tableNrows t - n := by
          cases t with
          | mk names cols =>
            cases cols with
            | nil => simp [tableNrows, batchDrop]
            | cons c cs => simp [tableNrows, batchDrop, List.length_drop]
        omega

/-- C7: for every stored table, `read_parquet` on a path source yields
exactly the row-major form of the table, in original row order, for every
batch size — any positive value or unspecified — so the batch size never
changes the observed sequence, and no error is raised. -/
theorem read_parquet_rows (t : ColumnTable) (bs : Option Nat)
    (hbs : ∀ m, bs = some m → 1 ≤ m) :
    read_parquet (.path (.table t)) bs = (toPylist t, none) := by
  simp only [read_parquet]
  rw [iterBatches, iterBatchesAux_flatten (bs.getD defaultBatchRows) ?hpos _ t
    le_rfl]
  case hpos =>
    cases bs with
    | none => decide
    | some m => exact hbs m rfl

/-- Witness for C7: a two-column, two-row table read with batch size 1 and
with the engine default both give the two rows in order. -/
theorem read_parquet_rows_witness :
    read_parquet (.path (.table ⟨["x", "y"],
        [[Json.num 10, Json.num 20], [Json.str "foo", Json.str "bar"]]⟩))
      (some 1) =
      ([[("x", Json.num 10), ("y", Json.str "foo")],
        [("x", Json.num 20), ("y", Json.str "bar")]], none) ∧
    read_parquet (.path (.table ⟨["x", "y"],
        [[Json.num 10, Json.num 20], [Json.str "foo", Json.str "bar"]]⟩))
      none =
      ([[("x", Json.num 10), ("y", Json.str "foo")],
        [("x", Json.num 20), ("y", Json.str "bar")]], none) :=
  ⟨(read_parquet_rows ⟨["x", "y"],
      [[Json.num 10, Json.num 20], [Json.str "foo", Json.str "bar"]]⟩
      (some 1) (by intro m hm; cases hm; decide)).trans (by decide),
   (read_parquet_rows ⟨["x", "y"],
      [[Json.num 10, Json.num 20], [Json.str "foo", Json.str "bar"]]⟩
      none (by intro m hm; cases hm)).trans (by decide)⟩

/-- C8: on a source that is not a valid Parquet container, `read_parquet`
fails at open time — no record is yielded — with a `RuntimeError` (an
I/O/runtime error), for both the path and the open-handle variant; the
raised error is never a format-decode (`JSONDecodeError`) error. -/
theorem read_parquet_invalid_open_error (msg : String) (bs : Option Nat) :
    read_parquet (.path (.corrupt msg)) bs =
      ([], some (.runtimeError ("Error opening Parquet file: " ++ msg))) ∧
    read_parquet (.handle (.corrupt msg)) bs =
      ([], some (.runtimeError ("Error opening Parquet buffer: " ++ msg))) ∧
    (∀ m d p, ReadErr.runtimeError ("Error opening Parquet file: " ++ msg) ≠
      ReadErr.jsonDecodeError m d p) :=
  ⟨rfl, rfl, fun _ _ _ h => ReadErr.noConfusion h⟩

/-- The source variants a reader distinguishes when acquiring its handle:
a filesystem path (plain, `.gz` or `.bz2` — all three open an owned
handle), an already-open character-oriented handle (`TextIOBase`), and any
other already-open byte-oriented handle. -/
inductive SourceVar where
  | path
  | textHandle
  | byteHandle
  deriving DecidableEq

/-- How a record stream ends: the caller never starts it (the generator
body never runs), pulls it to exhaustion, hits a raised error, or abandons
it early (Python then throws `GeneratorExit` into the generator). In every
mode but `neverStarted`, Python runs the `finally` block before control
leaves the generator for the last time. -/
inductive ExitMode where
  | neverStarted
  | exhausted
  | errored
  | abandoned
  deriving DecidableEq

/-- Handle events a reader can perform on its sources: creating a handle or
buffer of its own, closing it, and closing the caller's external handle
(which no reader ever does — no reader calls `close` on `source`). -/
inductive HEvent where
  | openOwned
  | closeOwned
  | closeExternal
  deriving DecidableEq

/-- Setup of `read_jsonl` (readers.py lines 19-34), as the pair
`(opens an owned handle, close_obj)`: a path opens a gzip/bz2/plain handle
with `close_obj = True`; a `TextIOBase` source is drained and re-wrapped in
an owned `BytesIO` with `close_obj = True` (the external handle itself is
read, never closed); any other handle is passed through with
`close_obj = False`. -/
def jsonl_setup : SourceVar → Bool × Bool
  | .path => (true, true)
  | .textHandle => (true, true)
  | .byteHandle => (false, false)

/-- Setup of `read_json_array` (readers.py lines 66-81): same acquisition
structure as `read_jsonl`. -/
def json_array_setup : SourceVar → Bool × Bool
  | .path => (true, true)
  | .textHandle => (true, true)
  | .byteHandle => (false, false)

/-- Setup of `read_csv` (readers.py lines 105-115): a path opens an owned
handle with `close_obj = True`; any handle source is passed through with
`close_obj = False`. (In chunked mode with a path source the pandas engine
additionally opens its own handle internally; that engine-internal handle
belongs to the black-box collaborator, not to the reader's explicit
resource handling.) -/
def csv_setup : SourceVar → Bool × Bool
  | .path => (true, true)
  | .textHandle => (false, false)
  | .byteHandle => (false, false)

/-- Setup of `read_parquet` (readers.py lines 149-165): a path source is
handed to `pq.ParquetFile` directly — the reader itself creates no file
object and `close_buffer = False` (the engine-internal handle belongs to
the black-box engine); a handle source of either kind is drained into an
owned `BytesIO` with `close_buffer = True`. -/
def parquet_setup : SourceVar → Bool × Bool
  | .path => (false, false)
  | .textHandle => (true, true)
  | .byteHandle => (true, true)

/-- The handle events of one full run of a reader whose acquisition behaves
as `setup`: if the generator body ever starts, the setup runs first, the
loop body performs no handle events, and the `finally` block — which Python
runs on every exit path of a generator body (normal return, uncaught
exception, and `GeneratorExit` on abandonment) — closes the owned handle
exactly when the close flag was set. -/
def readerTrace (setup : SourceVar → Bool × Bool) (v : SourceVar)
    (e : ExitMode) : List HEvent :=
  match e with
  | .neverStarted => []
  | _ =>
    (if (setup v).1 then [HEvent.openOwned] else []) ++
      (if (setup v).2 then [HEvent.closeOwned] else [])

/-- C9: for every reader (`read_jsonl`, `read_json_array`, `read_csv`,
`read_parquet`), every source variant and every exit path of the record
stream — normal exhaustion, error, caller abandonment, or never started —
the reader closes the handle or buffer it opened itself exactly when it
opened one (so an owned handle is always released before control finally
returns to the caller), and never closes an externally supplied handle. -/
theorem readers_release_resources (v : SourceVar) (e : ExitMode) :
    ((HEvent.openOwned ∈ readerTrace jsonl_setup v e ↔
        HEvent.closeOwned ∈ readerTrace jsonl_setup v e) ∧
      HEvent.closeExternal ∉ readerTrace jsonl_setup v e) ∧
    ((HEvent.openOwned ∈ readerTrace json_array_setup v e ↔
        HEvent.closeOwned ∈ readerTrace json_array_setup v e) ∧
      HEvent.closeExternal ∉ readerTrace json_array_setup v e) ∧
    ((HEvent.openOwned ∈ readerTrace csv_setup v e ↔
        HEvent.closeOwned ∈ readerTrace csv_setup v e) ∧
      HEvent.closeExternal ∉ readerTrace csv_setup v e) ∧
    ((HEvent.openOwned ∈ readerTrace parquet_setup v e ↔
        HEvent.closeOwned ∈ readerTrace parquet_setup v e) ∧
      HEvent.closeExternal ∉ readerTrace parquet_setup v e) := by
  cases v <;> cases e <;> decide
